import Mathlib

/-!
# Verification of the Pricing-Intelligence MCP server core

Shallow embedding of the question-answering orchestration pipeline of the
`pricing_mcp` package (`agent.py`, `llm_client.py`, `clients/analysis.py`,
`cache.py`) and proofs of the specification's claims about it.

Dynamic Python values (JSON-decoded plans, payloads, action entries) are
modelled by the inductive type `PyValue`; numeric literals are modelled as
integers (no claim touches fractional JSON numbers).  External collaborators
(the remote LLM, the workflow, the HTTP analysis service, `json.loads` /
`json.dumps`, string interpolation of arbitrary objects) are modelled as
oracle parameters.  Wall-clock instants and durations are modelled as
rationals.
-/

namespace PricingMCP

/-- A dynamically typed Python value as it occurs in decoded JSON plans and
workflow payloads.  `int` stands in for Python numbers; dictionaries are
association lists with at most one binding per key (Python `dict`). -/
inductive PyValue where
  | none
  | bool (b : Bool)
  | int (n : Int)
  | str (s : String)
  | list (xs : List PyValue)
  | dict (kvs : List (String × PyValue))

mutual

/-- Structural equality on `PyValue` (Python `==` between plain data). -/
def pvBeq : PyValue → PyValue → Bool
  | .none, .none => true
  | .bool a, .bool b => a == b
  | .int a, .int b => a == b
  | .str a, .str b => a == b
  | .list xs, .list ys => pvListBeq xs ys
  | .dict xs, .dict ys => pvDictBeq xs ys
  | _, _ => false

/-- Elementwise equality of value lists. -/
def pvListBeq : List PyValue → List PyValue → Bool
  | [], [] => true
  | x :: xs, y :: ys => pvBeq x y && pvListBeq xs ys
  | _, _ => false

/-- Elementwise equality of key/value binding lists. -/
def pvDictBeq : List (String × PyValue) → List (String × PyValue) → Bool
  | [], [] => true
  | (k, v) :: xs, (l, w) :: ys => k == l && pvBeq v w && pvDictBeq xs ys
  | _, _ => false

end

mutual

theorem pvBeq_iff : ∀ a b : PyValue, pvBeq a b = true ↔ a = b
  | .none, .none => by simp [pvBeq]
  | .bool a, .bool b => by simp [pvBeq]
  | .int a, .int b => by simp [pvBeq]
  | .str a, .str b => by simp [pvBeq]
  | .list xs, .list ys => by
      simpa [pvBeq, PyValue.list.injEq] using pvListBeq_iff xs ys
  | .dict xs, .dict ys => by
      simpa [pvBeq, PyValue.dict.injEq] using pvDictBeq_iff xs ys
  | .none, .bool _ | .none, .int _ | .none, .str _ | .none, .list _
  | .none, .dict _ | .bool _, .none | .bool _, .int _ | .bool _, .str _
  | .bool _, .list _ | .bool _, .dict _ | .int _, .none | .int _, .bool _
  | .int _, .str _ | .int _, .list _ | .int _, .dict _ | .str _, .none
  | .str _, .bool _ | .str _, .int _ | .str _, .list _ | .str _, .dict _
  | .list _, .none | .list _, .bool _ | .list _, .int _ | .list _, .str _
  | .list _, .dict _ | .dict _, .none | .dict _, .bool _ | .dict _, .int _
  | .dict _, .str _ | .dict _, .list _ => by simp [pvBeq]

theorem pvListBeq_iff : ∀ xs ys : List PyValue, pvListBeq xs ys = true ↔ xs = ys
  | [], [] => by simp [pvListBeq]
  | x :: xs, y :: ys => by
      simp [pvListBeq, Bool.and_eq_true, pvBeq_iff x y, pvListBeq_iff xs ys]
  | [], _ :: _ => by simp [pvListBeq]
  | _ :: _, [] => by simp [pvListBeq]

theorem pvDictBeq_iff :
    ∀ xs ys : List (String × PyValue), pvDictBeq xs ys = true ↔ xs = ys
  | [], [] => by simp [pvDictBeq]
  | (k, v) :: xs, (l, w) :: ys => by
      simp [pvDictBeq, Bool.and_eq_true, pvBeq_iff v w, pvDictBeq_iff xs ys,
        and_assoc]
  | [], _ :: _ => by simp [pvDictBeq]
  | _ :: _, [] => by simp [pvDictBeq]

end

instance : DecidableEq PyValue := fun a b =>
  decidable_of_iff (pvBeq a b = true) (pvBeq_iff a b)

/-- Python truthiness (`bool(v)`): `None`, `False`, `0`, `""`, `[]`, `{}`
are falsy, everything else is truthy. -/
def pyTruthy : PyValue → Bool
  | .none => false
  | .bool b => b
  | .int n => n != 0
  | .str s => s != ""
  | .list xs => !xs.isEmpty
  | .dict kvs => !kvs.isEmpty

/-- Python `a or b`: `a` if truthy, else `b`. -/
def pyOr (a b : PyValue) : PyValue :=
  if pyTruthy a then a else b

/-- `d.get(k)` on a dict: the bound value if present, `None` otherwise
(also `None` when `d` is not a dict, which never happens on the paths the
source exercises). -/
def pyGet (v : PyValue) (k : String) : PyValue :=
  match v with
  | .dict kvs => (kvs.lookup k).getD .none
  | _ => .none

/-- `d.get(k, default)` on a dict. -/
def pyGetD (v : PyValue) (k : String) (default : PyValue) : PyValue :=
  match v with
  | .dict kvs => (kvs.lookup k).getD default
  | _ => default

/-- Lift an optional Lean string (a statically typed `Optional[str]`
parameter) into the dynamic value world. -/
def pvOfOptStr : Option String → PyValue
  | Option.none => .none
  | Option.some s => .str s

section Cache
/-! ## `cache.py` — `MemoryCache`

The in-process store `self._store : dict[str, CacheEntry]` is modelled as an
association list with at most one binding per key (maintained by
construction: `set` removes any previous binding).  `time.time()` is a
rational-valued parameter `now`. -/

/-- `CacheEntry` dataclass: opaque value plus absolute expiry instant. -/
structure CacheEntry where
  value : PyValue
  expires_at : ℚ
  deriving DecidableEq

/-- The `MemoryCache._store` contents. -/
abbrev CacheStore := List (String × CacheEntry)

/-- `MemoryCache.set`: store the value with `expires_at = time.time() +
ttl_seconds` (Python dict assignment replaces any previous binding). -/
def memSet (store : CacheStore) (key : String) (value : PyValue)
    (ttl_seconds : ℚ) (now : ℚ) : CacheStore :=
  (key, ⟨value, now + ttl_seconds⟩) :: store.filter (fun p => p.1 ≠ key)

/-- `MemoryCache.get` at instant `now`: returns the hit (or `Option.none`)
together with the store after the call (expired entries are popped).  A
`CacheEntry` dataclass instance is always truthy, so `if not entry` is
exactly the missing-key test. -/
def memGet (store : CacheStore) (key : String) (now : ℚ) :
    Option PyValue × CacheStore :=
  match store.lookup key with
  | Option.none => (Option.none, store)
  | Option.some entry =>
      if entry.expires_at < now then
        (Option.none, store.filter (fun p => p.1 ≠ key))
      else
        (Option.some entry.value, store)

end Cache

section LLMClient
/-! ## `llm_client.py` — `GeminiOpenAIClient`

The remote chat endpoint is an oracle `send : ℕ → String → String →
String × String` mapping (call index, prompt, model) to (content,
finish_reason); `json.loads` / `json.dumps` are oracle parameters
`decode : String → Option PyValue` and `encode : PyValue → String`. -/

/-- `GeminiClientConfig` dataclass (temperature only parameterizes the
remote call, never the control flow). -/
structure GeminiClientConfig where
  api_key : String
  model : String
  base_url : String := "https://generativelanguage.googleapis.com/v1beta/openai/"
  temperature : ℚ := 7/10
  better_model : Option String := Option.some "gemini-2.5-pro"

/-- `_LLMGenerationState` dataclass. -/
structure LLMGenerationState where
  prompt : String
  model : String
  accumulated : String := ""
  finish_reason : String := ""
  use_better_model : Bool := false
  deriving DecidableEq

/-- `_normalize_response`: strip surrounding whitespace; if the stripped
text is wrapped in a fenced code block, drop the first and last lines and
strip again. -/
def normalizeResponse (response : String) : String :=
  let stripped := response.trim
  if stripped.startsWith "```" && stripped.endsWith "```" then
    (String.intercalate "\n" ((stripped.splitOn "\n").drop 1).dropLast).trim
  else
    stripped

/-- `_step_generation` at remote call number `k`: send the current prompt to
the current model, normalize the reply, append it to the accumulated
buffer, record the finish reason. -/
def stepGeneration (send : ℕ → String → String → String × String)
    (k : ℕ) (state : LLMGenerationState) : LLMGenerationState :=
  let r := send k state.prompt state.model
  { prompt := state.prompt
    model := state.model
    accumulated := state.accumulated ++ normalizeResponse r.1
    finish_reason := r.2
    use_better_model := state.use_better_model }

/-- `_try_finalize`: with structured output required, succeed exactly when
the accumulated buffer parses, returning its canonical re-serialization;
otherwise succeed unless the finish signal is the truncation marker
`"length"`. -/
def tryFinalize (decode : String → Option PyValue) (encode : PyValue → String)
    (json_output : Bool) (state : LLMGenerationState) : Option String :=
  if json_output then
    match decode state.accumulated with
    | Option.none => Option.none
    | Option.some parsed => Option.some (encode parsed)
  else
    if state.finish_reason != "length" then Option.some state.accumulated
    else Option.none

/-- `_build_continue_prompt`. -/
def buildContinuePrompt (initial_prompt accumulated : String) : String :=
  "The previous response was truncated. Resume exactly where it stopped.\n" ++
  "<initial_prompt>\n" ++ initial_prompt ++ "\n</initial_prompt>\n" ++
  "<partial_response>\n" ++ accumulated ++ "\n</partial_response>"

/-- `_prepare_retry`: escalate to `better_model` (truthy and not yet used)
resetting the buffer and restarting from the original prompt; otherwise
continue on the same model with a continuation prompt. -/
def prepareRetry (config : GeminiClientConfig)
    (state : LLMGenerationState) (initial_prompt : String) :
    LLMGenerationState :=
  if pyTruthy (pvOfOptStr config.better_model) && !state.use_better_model then
    { prompt := initial_prompt
      model := config.better_model.getD ""
      accumulated := ""
      finish_reason := ""
      use_better_model := true }
  else
    { prompt := buildContinuePrompt initial_prompt state.accumulated
      model := state.model
      accumulated := state.accumulated
      finish_reason := ""
      use_better_model := state.use_better_model }

/-- The attempt loop of `make_full_request` with `remaining` attempts left,
starting at remote call number `k`.  Returns the number of remote calls made
together with the outcome (`.error` models the final `raise ValueError`). -/
def makeFullRequestGo (config : GeminiClientConfig)
    (send : ℕ → String → String → String × String)
    (decode : String → Option PyValue) (encode : PyValue → String)
    (json_output : Bool) (initial_prompt : String) :
    ℕ → ℕ → LLMGenerationState → ℕ × Except String String
  | 0, _, _ => (0, .error "Could not obtain a complete response from the LLM.")
  | remaining + 1, k, state =>
      let state1 := stepGeneration send k state
      match tryFinalize decode encode json_output state1 with
      | Option.some result => (1, .ok result)
      | Option.none =>
          if remaining = 0 then
            (1, .error "Could not obtain a complete response from the LLM.")
          else
            let r := makeFullRequestGo config send decode encode json_output
              initial_prompt remaining (k + 1)
              (prepareRetry config state1 initial_prompt)
            (r.1 + 1, r.2)

/-- `make_full_request(initial_prompt, max_tries, json_output)`. -/
def makeFullRequest (config : GeminiClientConfig)
    (send : ℕ → String → String → String × String)
    (decode : String → Option PyValue) (encode : PyValue → String)
    (initial_prompt : String) (max_tries : ℕ) (json_output : Bool) :
    ℕ × Except String String :=
  makeFullRequestGo config send decode encode json_output initial_prompt
    max_tries 0 { prompt := initial_prompt, model := config.model }

end LLMClient

section AnalysisClient
/-! ## `clients/analysis.py` — `AnalysisClient._poll_job`

The remote status endpoint is an oracle `statuses : ℕ → PyValue` giving the
decoded body of the `k`-th GET; Python string interpolation of the remote
error object (`f"... {error}"`) is an oracle `fmt : PyValue → String`.

The while loop checks `elapsed < max_wait_seconds` with `elapsed = k *
poll_interval_seconds` after `k` non-terminal polls, so (for a positive
poll interval, the only case in which the source loop terminates on a
never-terminal job) it runs at most `numPolls` iterations. -/

/-- Number of iterations the polling while-loop admits: the least `k` with
`k * poll_interval_seconds ≥ max_wait_seconds` (for a positive interval). -/
def numPolls (poll_interval_seconds max_wait_seconds : ℚ) : ℕ :=
  if 0 < poll_interval_seconds then ⌈max_wait_seconds / poll_interval_seconds⌉₊
  else 0

/-- The body of `_poll_job`'s while loop, with `remaining` iterations still
allowed, polling from index `k`.  Returns the number of GETs performed and
the outcome (`.error` models `raise AnalysisError`). -/
def pollGo (fmt : PyValue → String) (statuses : ℕ → PyValue) :
    ℕ → ℕ → ℕ × Except String PyValue
  | 0, _ => (0, .error "Timed out waiting for analysis result")
  | remaining + 1, k =>
      let payload := statuses k
      let status := pyGet payload "status"
      if status = .str "COMPLETED" then
        (1, .ok (pyGetD payload "result" (.dict [])))
      else if status = .str "FAILED" then
        (1, .error ("Analysis job failed: " ++ fmt (pyGet payload "error")))
      else
        let r := pollGo fmt statuses remaining (k + 1)
        (r.1 + 1, r.2)

/-- `_poll_job(job_id, poll_interval_seconds, max_wait_seconds)`. -/
def pollJob (fmt : PyValue → String) (statuses : ℕ → PyValue)
    (poll_interval_seconds max_wait_seconds : ℚ) : ℕ × Except String PyValue :=
  pollGo fmt statuses (numPolls poll_interval_seconds max_wait_seconds) 0

end AnalysisClient

section Agent
/-! ## `agent.py` — `PricingAgent`

The planner LLM together with `json.loads` is modelled by handing
`handleQuestion` the already-parsed plan value (a plan-parse failure raises
before anything else happens and is outside every claim); the workflow
collaborator is an oracle `wf` from dispatched calls to payloads; the
answer LLM is an oracle from (question, plan, answer-context payload) to
response text. -/

/-- `ALLOWED_ACTIONS`. -/
def ALLOWED_ACTIONS : List String := ["optimal", "subscriptions", "summary"]

/-- `PlannedAction` dataclass.  After `_parse_action_entry`'s isinstance
checks, `objective` and `pricing_url` are either `None` or strings, hence
`Option String`. -/
structure PlannedAction where
  name : String
  objective : Option String := Option.none
  pricing_url : Option String := Option.none
  deriving DecidableEq

/-- `_parse_action_entry`: bare names validated against the vocabulary;
objects need a valid `name`, an `objective` outside
{absent, minimize, maximize} is discarded (kept action, no objective), a
non-string reference override is discarded. -/
def parseActionEntry (entry : PyValue) : Option PlannedAction :=
  match entry with
  | .str s =>
      if s ∈ ALLOWED_ACTIONS then Option.some ⟨s, Option.none, Option.none⟩
      else Option.none
  | .dict _ =>
      match pyGet entry "name" with
      | .str n =>
          if n ∈ ALLOWED_ACTIONS then
            let objective := pyGet entry "objective"
            let objective :=
              if objective = .none ∨ objective = .str "minimize" ∨
                  objective = .str "maximize" then objective
              else .none
            let pricing_url := pyOr (pyGet entry "pricing_url") (pyGet entry "url")
            Option.some
              ⟨n,
               match objective with
               | .str s => Option.some s
               | _ => Option.none,
               match pricing_url with
               | .str s => Option.some s
               | _ => Option.none⟩
          else Option.none
      | _ => Option.none
  | _ => Option.none

/-- `_normalize_actions`: `None`/`[]` and non-list values yield no actions;
a list keeps exactly the parseable entries, in order. -/
def normalizeActions (raw_actions : PyValue) : List PlannedAction :=
  if raw_actions = .none ∨ raw_actions = .list [] then []
  else
    match raw_actions with
    | .list entries => entries.filterMap parseActionEntry
    | _ => []

/-- `_extract_filters`: `None` and `{}` become absent, any dict passes
through, anything else is discarded with a warning. -/
def extractFilters (raw_filters : PyValue) : Option PyValue :=
  if raw_filters = .none ∨ raw_filters = .dict [] then Option.none
  else
    match raw_filters with
    | .dict _ => Option.some raw_filters
    | _ => Option.none

/-- The `resolved_plan_url` local of `_resolve_pricing_reference`: a string
passes through, a list contributes its first element (or `None` when
empty), any other non-`None` value is discarded with a warning. -/
def resolvedPlanUrl (plan_url : PyValue) : PyValue :=
  match plan_url with
  | .str s => .str s
  | .list xs => xs.headD .none
  | _ => .none

/-- `_resolve_pricing_reference(plan_url, incoming_url, yaml_content)`. -/
def resolvePricingReference (plan_url : PyValue) (incoming_url : Option String)
    (yaml_content : Option String) : PyValue :=
  let url := pyOr (resolvedPlanUrl plan_url) (pvOfOptStr incoming_url)
  if pyTruthy (pvOfOptStr yaml_content) && !(pyTruthy url) then
    .str "uploaded://pricing"
  else url

/-- `_ensure_pricing_context`: every action must see a truthy per-action
reference or truthy document content, else the whole request fails. -/
def ensurePricingContext (url : PyValue) (yaml_content : Option String) :
    List PlannedAction → Except String Unit
  | [] => .ok ()
  | action :: rest =>
      let action_url := pyOr (pvOfOptStr action.pricing_url) url
      let hasContext := pyTruthy action_url || pyTruthy (pvOfOptStr yaml_content)
      if (action.name = "subscriptions" || action.name = "optimal") && !hasContext then
        .error "Running subscriptions or optimal analysis requires a pricing URL or an uploaded Pricing2Yaml file."
      else if action.name = "summary" && !hasContext then
        .error "A summary requires pricing context. Provide a pricing URL or Pricing2Yaml upload before running it."
      else ensurePricingContext url yaml_content rest

/-- `_prepare_action_inputs`: per-action reference, effective refresh flag
and forwarded document content. -/
def prepareActionInputs (action : PlannedAction) (default_url : PyValue)
    (refresh_requested : Bool) (transformed_urls : List PyValue)
    (yaml_content : Option String) : PyValue × Bool × Option String :=
  let action_url := pyOr (pvOfOptStr action.pricing_url) default_url
  let effective_refresh :=
    refresh_requested && pyTruthy action_url &&
      decide (action_url ∉ transformed_urls)
  let action_yaml :=
    if action_url = .none ∨ action_url = default_url then yaml_content
    else Option.none
  (action_url, effective_refresh, action_yaml)

/-- One dispatched call to the `PricingWorkflow` collaborator, as built by
`_run_single_action`.  Fields a given operation does not take
(`run_summary` has no solver/filters/objective, none but `run_optimal`
takes an objective) are recorded as absent. -/
structure WorkflowCall where
  operation : String
  url : PyValue
  refresh : Bool
  solver : PyValue
  filters : Option PyValue
  objective : PyValue
  yaml_content : Option String
  deriving DecidableEq

/-- `_run_single_action`'s dispatch: the call it sends to the workflow
(`run_summary` for `summary`, `run_subscriptions` for `subscriptions`,
`run_optimal` otherwise; the latter two substitute `""` for a falsy url and
the objective resolves as the action's override else the plan default). -/
def runSingleActionCall (action : PlannedAction) (url : PyValue)
    (refresh : Bool) (solver : PyValue) (filters : Option PyValue)
    (objective : PyValue) (yaml_content : Option String) : WorkflowCall :=
  let resolved_objective := pyOr (pvOfOptStr action.objective) objective
  if action.name = "summary" then
    { operation := "summary", url := url, refresh := refresh, solver := .none,
      filters := Option.none, objective := .none, yaml_content := yaml_content }
  else if action.name = "subscriptions" then
    { operation := "subscriptions", url := pyOr url (.str ""), refresh := refresh,
      solver := solver, filters := filters, objective := .none,
      yaml_content := yaml_content }
  else
    { operation := "optimal", url := pyOr url (.str ""), refresh := refresh,
      solver := solver, filters := filters, objective := resolved_objective,
      yaml_content := yaml_content }

/-- The loop body of `_execute_actions`: runs the remaining actions from
`index` with the given already-refreshed reference set, producing the
dispatched calls, the step records, and the final `last_payload`. -/
def executeActionsGo (wf : WorkflowCall → PyValue) (default_url : PyValue)
    (refresh_requested : Bool) (solver : PyValue) (filters : Option PyValue)
    (objective : PyValue) (yaml_content : Option String) :
    List PlannedAction → ℕ → List PyValue → Option PyValue →
    List WorkflowCall × List PyValue × Option PyValue
  | [], _, _, last_payload => ([], [], last_payload)
  | action :: rest, index, transformed_urls, _ =>
      let pai := prepareActionInputs action default_url refresh_requested
        transformed_urls yaml_content
      let action_url := pai.1
      let effective_refresh := pai.2.1
      let action_yaml := pai.2.2
      let call := runSingleActionCall action action_url effective_refresh
        solver filters objective action_yaml
      let payload := wf call
      let transformed' :=
        if effective_refresh && pyTruthy action_url then
          action_url :: transformed_urls
        else transformed_urls
      let step_record : PyValue := .dict (
        [("index", .int index), ("action", .str action.name),
         ("payload", payload)] ++
        (if action.name = "optimal" then
          [("objective", pyOr (pvOfOptStr action.objective) objective)]
         else []) ++
        (if pyTruthy action_url then [("url", action_url)] else []))
      let r := executeActionsGo wf default_url refresh_requested solver filters
        objective yaml_content rest (index + 1) transformed' (Option.some payload)
      (call :: r.1, step_record :: r.2.1, r.2.2)

/-- `_execute_actions`: empty plans short-circuit; otherwise the context
precondition is checked before any dispatch, then the actions run in
order. -/
def executeActions (wf : WorkflowCall → PyValue)
    (actions : List PlannedAction) (url : PyValue) (refresh : Bool)
    (solver : PyValue) (filters : Option PyValue) (objective : PyValue)
    (yaml_content : Option String) :
    List WorkflowCall × Except String (List PyValue × Option PyValue) :=
  if actions.isEmpty then ([], .ok ([], Option.none))
  else
    match ensurePricingContext url yaml_content actions with
    | .error msg => ([], .error msg)
    | .ok _ =>
        let r := executeActionsGo wf url refresh solver filters objective
          yaml_content actions 0 [] Option.none
        (r.1, .ok (r.2.1, r.2.2))

/-- The `last_payload or {}` fallback of `_compose_results_payload`
(Python `or` on an `Optional[Dict]`). -/
def lastPayloadOrEmpty (last_payload : Option PyValue) : PyValue :=
  match last_payload with
  | Option.none => .dict []
  | Option.some lp => if pyTruthy lp then lp else .dict []

/-- `_compose_results_payload`: (answer-context payload, caller-facing
result). -/
def composeResultsPayload (actions : List PlannedAction)
    (results : List PyValue) (last_payload : Option PyValue) :
    PyValue × PyValue :=
  match results with
  | [] => (.dict [("steps", .list [])], .dict [("steps", .list [])])
  | [step_record] =>
      let payload := pyGet step_record "payload"
      let payload :=
        if payload = .none then lastPayloadOrEmpty last_payload else payload
      (payload, step_record)
  | _ =>
      let combined : PyValue := .dict (
        [("actions", .list (actions.map (fun a => .str a.name))),
         ("steps", .list results)] ++
        (match last_payload with
         | Option.none => []
         | Option.some lp => [("lastPayload", lp)]))
      (combined, combined)

/-- `_validate_yaml_requirement`. -/
def validateYamlRequirement (plan : PyValue) (yaml_content : Option String) :
    Except String Unit :=
  if pyTruthy (pyGet plan "requires_uploaded_yaml") &&
      !(pyTruthy (pvOfOptStr yaml_content)) then
    .error "The assistant needs a YAML pricing file to proceed. Please upload one and retry."
  else .ok ()

/-- `handle_question`, from the parsed plan onward: yaml-requirement
validation, normalization, reference resolution, execution, aggregation and
answer synthesis.  Returns the dispatched workflow calls alongside the
outcome; the success value is the returned
`{"plan": ..., "result": ..., "answer": ...}` mapping. -/
def handleQuestion (plan : PyValue) (wf : WorkflowCall → PyValue)
    (answerLLM : String → PyValue → PyValue → String) (question : String)
    (pricing_url : Option String) (yaml_content : Option String) :
    List WorkflowCall × Except String PyValue :=
  match validateYamlRequirement plan yaml_content with
  | .error msg => ([], .error msg)
  | .ok _ =>
      let actions := normalizeActions (pyGet plan "actions")
      let solver := pyGetD plan "solver" (.str "minizinc")
      let objective := pyGetD plan "objective" (.str "minimize")
      let filters := extractFilters (pyGet plan "filters")
      let refresh := pyTruthy (pyGetD plan "refresh" (.bool false))
      let url := resolvePricingReference (pyGet plan "pricing_url")
        pricing_url yaml_content
      match executeActions wf actions url refresh solver filters objective
          yaml_content with
      | (calls, .error msg) => (calls, .error msg)
      | (calls, .ok (results, last_payload)) =>
          let composed := composeResultsPayload actions results last_payload
          let response := answerLLM question plan composed.1
          let answer :=
            if response = "" then "No answer could be generated." else response
          (calls, .ok (.dict [("plan", plan), ("result", composed.2),
            ("answer", .str answer)]))

end Agent

/-! ## Helper lemmas -/

/-- After removing every binding of `key`, looking `key` up misses. -/
theorem lookup_filter_ne (store : CacheStore) (key : String) :
    (store.filter (fun p => p.1 ≠ key)).lookup key = Option.none := by
  induction store with
  | nil => rfl
  | cons p rest ih =>
      obtain ⟨k, v⟩ := p
      simp only [List.filter_cons]
      by_cases h : k = key
      · simp only [h, ne_eq, not_true_eq_false, decide_False, Bool.false_eq_true,
          if_false]
        exact ih
      · have hke : (key == k) = false := by
          simp [beq_iff_eq]
          exact Ne.symm h
        simp only [ne_eq, h, not_false_eq_true, decide_True, if_true, List.lookup,
          hke]
        exact ih

/-! ## Claims -/

/-- C9.  In-process cache: after `set(key, value, ttl)` at instant `now`, a
`get(key)` strictly before the expiry instant `now + ttl` returns the value;
a `get(key)` strictly after the expiry instant returns absent and removes
the entry from the store (lazily, at `get` time). -/
theorem memCache_set_get (store : CacheStore) (key : String) (value : PyValue)
    (ttl now t : ℚ) :
    (t < now + ttl →
      memGet (memSet store key value ttl now) key t =
        (Option.some value, memSet store key value ttl now)) ∧
    (now + ttl < t →
      (memGet (memSet store key value ttl now) key t).1 = Option.none ∧
      ((memGet (memSet store key value ttl now) key t).2).lookup key =
        Option.none) := by
  constructor
  · intro ht
    simp [memGet, memSet, List.lookup, not_lt.mpr (le_of_lt ht)]
  · intro ht
    constructor
    · simp [memGet, memSet, List.lookup, ht]
    · simp only [memGet, memSet, List.lookup]
      simp only [beq_self_eq_true, Option.getD_some, if_pos ht]
      simpa using lookup_filter_ne ((key, ⟨value, now + ttl⟩) ::
        store.filter (fun p => p.1 ≠ key)) key

/-- C9 witness: `set` then `get` half a second later hits; `get` two seconds
later (TTL one second) misses and evicts. -/
theorem memCache_set_get_witness :
    memGet (memSet [] "k" (PyValue.int 7) 1 0) "k" (1/2) =
      (Option.some (PyValue.int 7), memSet [] "k" (PyValue.int 7) 1 0) ∧
    (memGet (memSet [] "k" (PyValue.int 7) 1 0) "k" 2).1 = Option.none ∧
    ((memGet (memSet [] "k" (PyValue.int 7) 1 0) "k" 2).2).lookup "k" =
      Option.none :=
  ⟨(memCache_set_get [] "k" (PyValue.int 7) 1 0 (1/2)).1 (by norm_num),
   (memCache_set_get [] "k" (PyValue.int 7) 1 0 2).2 (by norm_num)⟩

/-- C10.  Cache expiry boundary: an entry is expired only when the current
time is strictly greater than `expires_at`; a `get` at exactly the expiry
instant still returns the stored value and leaves the store untouched. -/
theorem memGet_expiry_boundary (store : CacheStore) (key : String)
    (e : CacheEntry) (now : ℚ) (hlookup : store.lookup key = Option.some e) :
    (¬ e.expires_at < now →
      memGet store key now = (Option.some e.value, store)) ∧
    (e.expires_at < now →
      memGet store key now =
        (Option.none, store.filter (fun p => p.1 ≠ key))) ∧
    memGet store key e.expires_at = (Option.some e.value, store) := by
  refine ⟨fun h => ?_, fun h => ?_, ?_⟩ <;>
    simp [memGet, hlookup, *]

/-- C10 witness: a concrete one-entry store read at exactly its expiry
instant still hits. -/
theorem memGet_expiry_boundary_witness :
    memGet [("k", ⟨PyValue.int 7, (5 : ℚ)⟩)] "k" 5 =
      (Option.some (PyValue.int 7), [("k", ⟨PyValue.int 7, (5 : ℚ)⟩)]) :=
  (memGet_expiry_boundary [("k", ⟨PyValue.int 7, (5 : ℚ)⟩)] "k"
    ⟨PyValue.int 7, (5 : ℚ)⟩ 0 (by decide)).2.2

/-- C6.  Plan normalization: the concrete raw list
`["summary", {"name": "optimal", "objective": "maximize"}, {"name":
"bogus"}]` yields exactly the actions `summary` and `optimal`/maximize
(`bogus` dropped); in general a bare name outside the vocabulary is
dropped, an object with a name outside the vocabulary is dropped, an
invalid objective is discarded while the action is kept, and a list
normalizes to exactly its parseable entries (dropping never fails the
request). -/
theorem normalize_actions_spec :
    (normalizeActions (.list [.str "summary",
        .dict [("name", .str "optimal"), ("objective", .str "maximize")],
        .dict [("name", .str "bogus")]]) =
      [⟨"summary", Option.none, Option.none⟩,
       ⟨"optimal", Option.some "maximize", Option.none⟩]) ∧
    (∀ s, s ∉ ALLOWED_ACTIONS → parseActionEntry (.str s) = Option.none) ∧
    (∀ kvs n, pyGet (.dict kvs) "name" = .str n → n ∉ ALLOWED_ACTIONS →
      parseActionEntry (.dict kvs) = Option.none) ∧
    (∀ kvs n, pyGet (.dict kvs) "name" = .str n → n ∈ ALLOWED_ACTIONS →
      pyGet (.dict kvs) "objective" ≠ .none →
      pyGet (.dict kvs) "objective" ≠ .str "minimize" →
      pyGet (.dict kvs) "objective" ≠ .str "maximize" →
      ∃ pu, parseActionEntry (.dict kvs) = Option.some ⟨n, Option.none, pu⟩) ∧
    (∀ entries, normalizeActions (.list entries) =
      entries.filterMap parseActionEntry) := by
  refine ⟨by decide, fun s hs => ?_, fun kvs n hn hall => ?_,
    fun kvs n hn hall h1 h2 h3 => ?_, fun entries => ?_⟩
  · simp [parseActionEntry, hs]
  · simp [parseActionEntry, hn, hall]
  · refine ⟨match pyOr (pyGet (.dict kvs) "pricing_url")
        (pyGet (.dict kvs) "url") with
      | .str s => Option.some s
      | _ => Option.none, ?_⟩
    simp [parseActionEntry, hn, hall, h1, h2, h3]
  · rcases entries with _ | ⟨e, es⟩
    · rfl
    · simp [normalizeActions]

/-- C6 witness: the out-of-vocabulary entries and the invalid objective at
concrete inputs. -/
theorem normalize_actions_spec_witness :
    parseActionEntry (.str "bogus") = Option.none ∧
    parseActionEntry (.dict [("name", .str "bogus")]) = Option.none ∧
    ∃ pu, parseActionEntry
        (.dict [("name", .str "optimal"), ("objective", .str "weird")]) =
      Option.some ⟨"optimal", Option.none, pu⟩ :=
  ⟨normalize_actions_spec.2.1 "bogus" (by decide),
   normalize_actions_spec.2.2.1 [("name", .str "bogus")] "bogus" (by decide)
     (by decide),
   normalize_actions_spec.2.2.2.1 [("name", .str "optimal"),
     ("objective", .str "weird")] "optimal" (by decide) (by decide)
     (by decide) (by decide) (by decide)⟩

/-- C8 counterexample: the plan's own reference `""` *is* a string, yet the
effective reference is the caller-supplied one, because a falsy plan value
falls through (`resolved_plan_url or incoming_url`). -/
theorem resolve_reference_cex :
    resolvePricingReference (.str "") (Option.some "https://caller.example")
        Option.none = .str "https://caller.example" ∧
      PyValue.str "https://caller.example" ≠ PyValue.str "" :=
  ⟨rfl, by decide⟩

/-- C8 (amended).  Reference resolution: the plan-derived value is the
plan's reference if it is a string, the first element of a non-empty
candidate sequence, and absent otherwise; the effective reference is the
plan-derived value if truthy, else the caller-supplied reference; when the
chosen value is falsy but document content was supplied, the sentinel
`uploaded://pricing` reference is synthesized; with no plan reference, no
caller reference and no document content the result is absent. -/
theorem resolve_reference_amended (plan_url : PyValue)
    (incoming_url yaml_content : Option String) :
    (∀ s, plan_url = .str s → resolvedPlanUrl plan_url = .str s) ∧
    (∀ x xs, plan_url = .list (x :: xs) → resolvedPlanUrl plan_url = x) ∧
    (plan_url = .list [] → resolvedPlanUrl plan_url = .none) ∧
    (plan_url = .none → resolvedPlanUrl plan_url = .none) ∧
    (pyTruthy (resolvedPlanUrl plan_url) = true →
      resolvePricingReference plan_url incoming_url yaml_content =
        resolvedPlanUrl plan_url) ∧
    (pyTruthy (resolvedPlanUrl plan_url) = false →
      pyTruthy (pvOfOptStr incoming_url) = true →
      resolvePricingReference plan_url incoming_url yaml_content =
        pvOfOptStr incoming_url) ∧
    (pyTruthy (resolvedPlanUrl plan_url) = false →
      pyTruthy (pvOfOptStr incoming_url) = false →
      pyTruthy (pvOfOptStr yaml_content) = true →
      resolvePricingReference plan_url incoming_url yaml_content =
        .str "uploaded://pricing") ∧
    (plan_url = .none → incoming_url = Option.none →
      yaml_content = Option.none →
      resolvePricingReference plan_url incoming_url yaml_content = .none) := by
  refine ⟨fun s hs => by rw [hs]; rfl,
    fun x xs hx => by rw [hx]; rfl,
    fun h => by rw [h]; rfl,
    fun h => by rw [h]; rfl,
    fun ht => ?_, fun hf hi => ?_, fun hf hi hy => ?_, fun h1 h2 h3 => ?_⟩
  · have hurl : pyOr (resolvedPlanUrl plan_url) (pvOfOptStr incoming_url) =
        resolvedPlanUrl plan_url := by simp [pyOr, ht]
    simp [resolvePricingReference, hurl, ht]
  · have hurl : pyOr (resolvedPlanUrl plan_url) (pvOfOptStr incoming_url) =
        pvOfOptStr incoming_url := by simp [pyOr, hf]
    simp [resolvePricingReference, hurl, hi]
  · have hurl : pyOr (resolvedPlanUrl plan_url) (pvOfOptStr incoming_url) =
        pvOfOptStr incoming_url := by simp [pyOr, hf]
    simp [resolvePricingReference, hurl, hi, hy]
  · subst h1 h2 h3; rfl

/-- C8 witness: at a concrete input the sentinel case fires: empty plan
list, no caller reference, document content supplied. -/
theorem resolve_reference_amended_witness :
    resolvePricingReference (.list []) Option.none
        (Option.some "plans:\n  basic: {}") = .str "uploaded://pricing" :=
  (resolve_reference_amended (.list []) Option.none
      (Option.some "plans:\n  basic: {}")).2.2.2.2.2.2.1
    (by decide) (by decide) (by decide)

/-- A poll response that keeps the loop going (any status other than the
two terminal ones). -/
def nonTerminal (payload : PyValue) : Prop :=
  pyGet payload "status" ≠ .str "COMPLETED" ∧
  pyGet payload "status" ≠ .str "FAILED"

/-- A non-terminal poll adds one GET and continues at the next index. -/
theorem pollGo_nonterminal_step (fmt : PyValue → String)
    (statuses : ℕ → PyValue) (remaining k : ℕ)
    (h : nonTerminal (statuses k)) :
    pollGo fmt statuses (remaining + 1) k =
      ((pollGo fmt statuses remaining (k + 1)).1 + 1,
       (pollGo fmt statuses remaining (k + 1)).2) := by
  simp [pollGo, h.1, h.2]

/-- After `m` non-terminal polls, a `COMPLETED` status ends the loop with
the payload's `result` field after `m + 1` GETs, provided the budget allows
the `m + 1`-st poll. -/
theorem pollGo_completed (fmt : PyValue → String) (statuses : ℕ → PyValue) :
    ∀ m k remaining : ℕ, (∀ j, j < m → nonTerminal (statuses (k + j))) →
      pyGet (statuses (k + m)) "status" = .str "COMPLETED" →
      m < remaining →
      pollGo fmt statuses remaining k =
        (m + 1, .ok (pyGetD (statuses (k + m)) "result" (.dict []))) := by
  intro m
  induction m with
  | zero =>
      intro k remaining _ hc hm
      obtain ⟨r, rfl⟩ : ∃ r, remaining = r + 1 := ⟨remaining - 1, by omega⟩
      simp only [Nat.add_zero] at hc
      simp [pollGo, hc]
  | succ m ih =>
      intro k remaining hnon hc hm
      obtain ⟨r, rfl⟩ : ∃ r, remaining = r + 1 := ⟨remaining - 1, by omega⟩
      have h0 : nonTerminal (statuses k) := by
        simpa using hnon 0 (by omega)
      rw [pollGo_nonterminal_step fmt statuses r k h0]
      have harg : k + 1 + m = k + (m + 1) := by omega
      have := ih (k + 1) r
        (fun j hj => by
          have hj1 : k + 1 + j = k + (j + 1) := by omega
          rw [hj1]
          exact hnon (j + 1) (by omega))
        (by rw [harg]; exact hc) (by omega)
      rw [this, harg]

/-- After `m` non-terminal polls, a `FAILED` status raises `AnalysisError`
with the interpolated remote error description after `m + 1` GETs (no
further polling), provided the budget allows the `m + 1`-st poll. -/
theorem pollGo_failed (fmt : PyValue → String) (statuses : ℕ → PyValue) :
    ∀ m k remaining : ℕ, (∀ j, j < m → nonTerminal (statuses (k + j))) →
      pyGet (statuses (k + m)) "status" = .str "FAILED" →
      m < remaining →
      pollGo fmt statuses remaining k =
        (m + 1, .error ("Analysis job failed: " ++
          fmt (pyGet (statuses (k + m)) "error"))) := by
  intro m
  induction m with
  | zero =>
      intro k remaining _ hc hm
      obtain ⟨r, rfl⟩ : ∃ r, remaining = r + 1 := ⟨remaining - 1, by omega⟩
      simp only [Nat.add_zero] at hc
      simp [pollGo, hc]
  | succ m ih =>
      intro k remaining hnon hc hm
      obtain ⟨r, rfl⟩ : ∃ r, remaining = r + 1 := ⟨remaining - 1, by omega⟩
      have h0 : nonTerminal (statuses k) := by
        simpa using hnon 0 (by omega)
      rw [pollGo_nonterminal_step fmt statuses r k h0]
      have harg : k + 1 + m = k + (m + 1) := by omega
      have := ih (k + 1) r
        (fun j hj => by
          have hj1 : k + 1 + j = k + (j + 1) := by omega
          rw [hj1]
          exact hnon (j + 1) (by omega))
        (by rw [harg]; exact hc) (by omega)
      rw [this, harg]

/-- A run of only non-terminal polls exhausts the budget: every allowed
iteration GETs once, then the loop times out. -/
theorem pollGo_timeout (fmt : PyValue → String) (statuses : ℕ → PyValue) :
    ∀ remaining k : ℕ, (∀ j, j < remaining → nonTerminal (statuses (k + j))) →
      pollGo fmt statuses remaining k =
        (remaining, .error "Timed out waiting for analysis result") := by
  intro remaining
  induction remaining with
  | zero => intro k _; rfl
  | succ r ih =>
      intro k h
      have h0 : nonTerminal (statuses k) := by simpa using h 0 (by omega)
      rw [pollGo_nonterminal_step fmt statuses r k h0]
      rw [ih (k + 1) (fun j hj => by
        have hj1 : k + 1 + j = k + (j + 1) := by omega
        rw [hj1]
        exact h (j + 1) (by omega))]

/-- The loop `while elapsed < max_wait` with `elapsed = k * interval` after
`k` polls admits exactly the polls with `k * interval < max_wait`. -/
theorem lt_numPolls_iff (poll_interval max_wait : ℚ)
    (h : 0 < poll_interval) (k : ℕ) :
    k < numPolls poll_interval max_wait ↔
      (k : ℚ) * poll_interval < max_wait := by
  rw [numPolls, if_pos h, Nat.lt_ceil, lt_div_iff₀ h]

/-- C4.  Analysis polling (for a positive poll interval, the only case in
which the source loop can terminate): a status sequence RUNNING, RUNNING,
COMPLETED returns the COMPLETED payload's `result` field after three GETs;
the first FAILED status (after `m` non-terminal polls) raises
`AnalysisError` carrying the interpolated remote error description with no
further polls; and a sequence that never turns terminal within the wait
budget raises the timeout `AnalysisError` after exhausting exactly the
allowed polls. -/
theorem poll_job_spec (fmt : PyValue → String) (statuses : ℕ → PyValue)
    (poll_interval max_wait : ℚ) (hpos : 0 < poll_interval) :
    (pyGet (statuses 0) "status" = .str "RUNNING" →
      pyGet (statuses 1) "status" = .str "RUNNING" →
      pyGet (statuses 2) "status" = .str "COMPLETED" →
      2 * poll_interval < max_wait →
      pollJob fmt statuses poll_interval max_wait =
        (3, .ok (pyGetD (statuses 2) "result" (.dict [])))) ∧
    (∀ m : ℕ, (∀ j, j < m → nonTerminal (statuses j)) →
      pyGet (statuses m) "status" = .str "FAILED" →
      (m : ℚ) * poll_interval < max_wait →
      pollJob fmt statuses poll_interval max_wait =
        (m + 1, .error ("Analysis job failed: " ++
          fmt (pyGet (statuses m) "error")))) ∧
    ((∀ j : ℕ, (j : ℚ) * poll_interval < max_wait → nonTerminal (statuses j)) →
      pollJob fmt statuses poll_interval max_wait =
        (numPolls poll_interval max_wait,
         .error "Timed out waiting for analysis result")) := by
  refine ⟨fun h0 h1 h2 hbudget => ?_, fun m hnon hf hbudget => ?_,
    fun hnon => ?_⟩
  · have h3 : 2 < numPolls poll_interval max_wait := by
      rw [lt_numPolls_iff poll_interval max_wait hpos 2]
      push_cast
      exact hbudget
    have := pollGo_completed fmt statuses 2 0 (numPolls poll_interval max_wait)
      (fun j hj => by
        interval_cases j <;>
          simp_all [nonTerminal])
      (by simpa using h2) h3
    simpa [pollJob] using this
  · have hm : m < numPolls poll_interval max_wait := by
      rw [lt_numPolls_iff poll_interval max_wait hpos m]
      exact hbudget
    have := pollGo_failed fmt statuses m 0 (numPolls poll_interval max_wait)
      (fun j hj => by simpa using hnon j hj) (by simpa using hf) hm
    simpa [pollJob] using this
  · exact pollGo_timeout fmt statuses (numPolls poll_interval max_wait) 0
      (fun j hj => by
        have := hnon j ((lt_numPolls_iff poll_interval max_wait hpos j).mp hj)
        simpa using this)

/-- C4 witness: interval 2, budget 5 (at most three polls): a RUNNING,
RUNNING, COMPLETED run returns the result field; an immediate FAILED raises
with the remote text; a never-terminal job times out after three polls. -/
theorem poll_job_spec_witness :
    pollJob (fun _ => "") (fun k =>
        if k < 2 then .dict [("status", .str "RUNNING")]
        else .dict [("status", .str "COMPLETED"), ("result", .int 7)])
        2 5 = (3, .ok (.int 7)) ∧
    pollJob (fun v => match v with | .str s => s | _ => "?")
        (fun _ => .dict [("status", .str "FAILED"), ("error", .str "boom")])
        2 5 = (1, .error "Analysis job failed: boom") ∧
    pollJob (fun _ => "") (fun _ => .dict [("status", .str "RUNNING")]) 2 5 =
      (3, .error "Timed out waiting for analysis result") := by
  refine ⟨?_, ?_, ?_⟩
  · exact (poll_job_spec _ _ 2 5 (by norm_num)).1 (by decide) (by decide)
      (by decide) (by norm_num)
  · exact (poll_job_spec _ _ 2 5 (by norm_num)).2.1 0 (by omega) (by decide)
      (by norm_num)
  · have h := (poll_job_spec (fun _ => "")
      (fun _ => .dict [("status", .str "RUNNING")]) 2 5 (by norm_num)).2.2
      (fun j _ => by constructor <;> decide)
    have hn : numPolls 2 5 = 3 := by
      rw [numPolls, if_pos (by norm_num : (0:ℚ) < 2)]
      norm_num [Nat.ceil_eq_iff]
    rw [hn] at h
    exact h

/-- The attempt loop with no finalizable attempt: every remaining attempt
makes one remote call, then the call fails. -/
theorem makeFullRequestGo_exhausts (config : GeminiClientConfig)
    (send : ℕ → String → String → String × String)
    (decode : String → Option PyValue) (encode : PyValue → String)
    (json_output : Bool) (initial_prompt : String)
    (h : ∀ k s, tryFinalize decode encode json_output
      (stepGeneration send k s) = Option.none) :
    ∀ remaining k state,
      makeFullRequestGo config send decode encode json_output initial_prompt
        remaining k state =
      (remaining, .error "Could not obtain a complete response from the LLM.") := by
  intro remaining
  induction remaining with
  | zero => intro k state; rfl
  | succ r ih =>
      intro k state
      rw [makeFullRequestGo, h k state]
      rcases Nat.eq_zero_or_pos r with hr | hr
      · subst hr; rfl
      · simp only [Nat.pos_iff_ne_zero.mp hr, if_false]
        rw [ih]

/-- C5.  When no attempt yields an acceptable response (the structured
buffer never parses, or the finish signal always signals truncation — i.e.
`_try_finalize` rejects every attempt's state), `make_full_request` makes
exactly `max_tries` remote calls and then fails with the generation-
exhausted error; no further remote calls occur. -/
theorem make_full_request_exhausts (config : GeminiClientConfig)
    (send : ℕ → String → String → String × String)
    (decode : String → Option PyValue) (encode : PyValue → String)
    (initial_prompt : String) (max_tries : ℕ) (json_output : Bool)
    (h : ∀ k s, tryFinalize decode encode json_output
      (stepGeneration send k s) = Option.none) :
    makeFullRequest config send decode encode initial_prompt max_tries
      json_output =
    (max_tries, .error "Could not obtain a complete response from the LLM.") :=
  makeFullRequestGo_exhausts config send decode encode json_output
    initial_prompt h max_tries 0 _

/-- C5 witness: structured output demanded, the buffer never parses
(decode oracle always fails): two attempts, two remote calls, then the
exhaustion error. -/
theorem make_full_request_exhausts_witness :
    makeFullRequest
      { api_key := "key", model := "gemini-2.5-flash" }
      (fun _ _ _ => ("not json", "stop")) (fun _ => Option.none)
      (fun _ => "") "plan please" 2 true =
    (2, .error "Could not obtain a complete response from the LLM.") :=
  make_full_request_exhausts
    { api_key := "key", model := "gemini-2.5-flash" }
    (fun _ _ _ => ("not json", "stop")) (fun _ => Option.none)
    (fun _ => "") "plan please" 2 true (fun _ _ => rfl)

/-- C2 counterexample: the configured higher-capability model equals the
current model — no *distinct* higher-capability model exists — yet
`_prepare_retry` still takes the escalation branch: it resets the
accumulated buffer to empty and restarts from the original prompt instead
of keeping the buffer and building a continuation prompt. -/
theorem prepare_retry_cex :
    (prepareRetry
        { api_key := "key", model := "gemini-2.5-pro",
          better_model := Option.some "gemini-2.5-pro" }
        { prompt := "p", model := "gemini-2.5-pro", accumulated := "partial",
          finish_reason := "length", use_better_model := false }
        "orig").accumulated = "" ∧
    (prepareRetry
        { api_key := "key", model := "gemini-2.5-pro",
          better_model := Option.some "gemini-2.5-pro" }
        { prompt := "p", model := "gemini-2.5-pro", accumulated := "partial",
          finish_reason := "length", use_better_model := false }
        "orig").prompt = "orig" ∧
    ("" : String) ≠ "partial" ∧
    "orig" ≠ buildContinuePrompt "orig" "partial" :=
  ⟨rfl, rfl, by decide, by decide⟩

/-- C2 (amended).  Retry preparation: if a higher-capability model is
configured (non-empty — even when identical to the current model) and has
not yet been used this call, the next attempt switches to it, resets the
accumulated buffer to empty and restarts from the original prompt;
otherwise the next attempt keeps the same model and accumulated buffer and
uses the continuation prompt embedding the original prompt and the partial
text; escalation happens at most once per top-level call (it only fires
with the flag unset, sets the flag, afterwards every retry is a
continuation, and attempts preserve the flag). -/
theorem prepare_retry_spec (config : GeminiClientConfig)
    (state : LLMGenerationState) (initial_prompt : String) :
    (pyTruthy (pvOfOptStr config.better_model) = true →
      state.use_better_model = false →
      prepareRetry config state initial_prompt =
        { prompt := initial_prompt, model := config.better_model.getD "",
          accumulated := "", finish_reason := "", use_better_model := true }) ∧
    (pyTruthy (pvOfOptStr config.better_model) = false ∨
        state.use_better_model = true →
      prepareRetry config state initial_prompt =
        { prompt := buildContinuePrompt initial_prompt state.accumulated,
          model := state.model, accumulated := state.accumulated,
          finish_reason := "",
          use_better_model := state.use_better_model }) ∧
    (state.use_better_model = true →
      (prepareRetry config state initial_prompt).model = state.model ∧
      (prepareRetry config state initial_prompt).accumulated =
        state.accumulated ∧
      (prepareRetry config state initial_prompt).use_better_model = true) ∧
    (∀ send k, (stepGeneration send k state).use_better_model =
      state.use_better_model) := by
  refine ⟨fun ht hflag => ?_, fun hor => ?_, fun hflag => ?_,
    fun send k => rfl⟩
  · simp [prepareRetry, ht, hflag]
  · rcases hor with hf | hflag
    · simp [prepareRetry, hf]
    · simp [prepareRetry, hflag]
  · have h2 : prepareRetry config state initial_prompt =
        { prompt := buildContinuePrompt initial_prompt state.accumulated,
          model := state.model, accumulated := state.accumulated,
          finish_reason := "",
          use_better_model := state.use_better_model } := by
      simp [prepareRetry, hflag]
    rw [h2, hflag]
    exact ⟨rfl, rfl, rfl⟩

/-- C2 witness: a fresh call with a distinct higher-capability model
configured escalates (resetting the buffer, restarting from the original
prompt), and an already-escalated state continues on the same model with
its buffer kept. -/
theorem prepare_retry_spec_witness :
    prepareRetry
      { api_key := "key", model := "gemini-2.5-flash",
        better_model := Option.some "gemini-2.5-pro" }
      { prompt := "p", model := "gemini-2.5-flash", accumulated := "part1",
        finish_reason := "length", use_better_model := false } "orig" =
      { prompt := "orig", model := "gemini-2.5-pro", accumulated := "",
        finish_reason := "", use_better_model := true } ∧
    prepareRetry
      { api_key := "key", model := "gemini-2.5-flash",
        better_model := Option.some "gemini-2.5-pro" }
      { prompt := "orig", model := "gemini-2.5-pro", accumulated := "part2",
        finish_reason := "length", use_better_model := true } "orig" =
      { prompt := buildContinuePrompt "orig" "part2",
        model := "gemini-2.5-pro", accumulated := "part2",
        finish_reason := "", use_better_model := true } :=
  ⟨(prepare_retry_spec _ _ "orig").1 (by decide) rfl,
   (prepare_retry_spec _ _ "orig").2.1 (Or.inr rfl)⟩

/-- C1 counterexample: a one-action request.  The answer-context payload
handed to the answer generator is the unwrapped raw payload (the answer
oracle observes `{"price": 42}` and replies "PAYLOAD"), but the
caller-facing `result` is the step record `{"index": 0, "action":
"summary", "payload": ..., "url": ...}`, which differs from the raw
payload — contradicting the claim that the result equals the payload with
no wrapping object. -/
theorem handle_question_single_result_cex :
    (handleQuestion (.dict [("actions", .list [.str "summary"])])
        (fun _ => .dict [("price", .int 42)])
        (fun _ _ payload =>
          if payload = .dict [("price", .int 42)] then "PAYLOAD" else "X")
        "q" (Option.some "https://ref.example") Option.none).2 =
      .ok (.dict [("plan", .dict [("actions", .list [.str "summary"])]),
        ("result", .dict [("index", .int 0), ("action", .str "summary"),
          ("payload", .dict [("price", .int 42)]),
          ("url", .str "https://ref.example")]),
        ("answer", .str "PAYLOAD")]) ∧
    PyValue.dict [("index", .int 0), ("action", .str "summary"),
        ("payload", .dict [("price", .int 42)]),
        ("url", .str "https://ref.example")] ≠
      PyValue.dict [("price", .int 42)] :=
  ⟨rfl, by decide⟩

/-- C1 (amended).  For every request whose normalized plan contains exactly
one action and whose execution succeeds, the answer-context payload is that
step's unwrapped raw payload (with the `last_payload or {}` fallback when
the payload value is `None`), while the caller-facing `result` returned by
`handle_question` is the single step record itself — not the unwrapped
payload. -/
theorem handle_question_single_action (plan : PyValue)
    (wf : WorkflowCall → PyValue)
    (answerLLM : String → PyValue → PyValue → String) (question : String)
    (pricing_url yaml_content : Option String) (a : PlannedAction)
    (step : PyValue) (last : Option PyValue) (calls : List WorkflowCall)
    (hval : validateYamlRequirement plan yaml_content = .ok ())
    (hacts : normalizeActions (pyGet plan "actions") = [a])
    (hexec : executeActions wf [a]
      (resolvePricingReference (pyGet plan "pricing_url") pricing_url
        yaml_content)
      (pyTruthy (pyGetD plan "refresh" (.bool false)))
      (pyGetD plan "solver" (.str "minizinc"))
      (extractFilters (pyGet plan "filters"))
      (pyGetD plan "objective" (.str "minimize"))
      yaml_content = (calls, .ok ([step], last))) :
    handleQuestion plan wf answerLLM question pricing_url yaml_content =
      (calls, .ok (.dict [("plan", plan), ("result", step),
        ("answer", .str (
          let payload := pyGet step "payload"
          let payload :=
            if payload = .none then lastPayloadOrEmpty last else payload
          let response := answerLLM question plan payload
          if response = "" then "No answer could be generated."
          else response))])) := by
  unfold handleQuestion
  rw [hval]
  dsimp only
  rw [hacts, hexec]
  dsimp only [composeResultsPayload]

/-- C1 witness: at a id-action plan with a concrete workflow payload, the
result field is the step record and the synthesized answer consumed the
unwrapped payload. -/
theorem handle_question_single_action_witness :
    handleQuestion (.dict [("actions", .list [.str "subscriptions"])])
        (fun _ => .dict [("cardinality", .int 3)])
        (fun _ _ _ => "ok") "q" (Option.some "https://p.example")
        Option.none =
      ([{ operation := "subscriptions", url := .str "https://p.example",
          refresh := false, solver := .str "minizinc",
          filters := Option.none, objective := .none,
          yaml_content := Option.none }],
       .ok (.dict [("plan", .dict [("actions", .list [.str "subscriptions"])]),
         ("result", .dict [("index", .int 0),
           ("action", .str "subscriptions"),
           ("payload", .dict [("cardinality", .int 3)]),
           ("url", .str "https://p.example")]),
         ("answer", .str "ok")])) :=
  handle_question_single_action
    (.dict [("actions", .list [.str "subscriptions"])])
    (fun _ => .dict [("cardinality", .int 3)]) (fun _ _ _ => "ok") "q"
    (Option.some "https://p.example") Option.none
    ⟨"subscriptions", Option.none, Option.none⟩
    (.dict [("index", .int 0), ("action", .str "subscriptions"),
      ("payload", .dict [("cardinality", .int 3)]),
      ("url", .str "https://p.example")])
    (Option.some (.dict [("cardinality", .int 3)]))
    [{ operation := "subscriptions", url := .str "https://p.example",
       refresh := false, solver := .str "minizinc", filters := Option.none,
       objective := .none, yaml_content := Option.none }]
    rfl rfl rfl

/-- Whether an `Except` computation succeeded. -/
def exceptIsOk {ε α : Type} : Except ε α → Bool
  | .ok _ => true
  | .error _ => false

/-- Parsed action entries always carry a vocabulary name. -/
theorem parseActionEntry_name_allowed (entry : PyValue) (pa : PlannedAction)
    (h : parseActionEntry entry = Option.some pa) :
    pa.name ∈ ALLOWED_ACTIONS := by
  cases entry with
  | str s =>
      simp only [parseActionEntry] at h
      split at h
      · rename_i hs
        obtain rfl : (⟨s, Option.none, Option.none⟩ : PlannedAction) = pa :=
          Option.some.inj h
        exact hs
      · exact absurd h (by simp)
  | dict kvs =>
      simp only [parseActionEntry] at h
      split at h
      · split at h
        · rename_i hall
          obtain rfl := Option.some.inj h
          exact hall
        · exact absurd h (by simp)
      · exact absurd h (by simp)
  | none => exact absurd h (by simp [parseActionEntry])
  | bool b => exact absurd h (by simp [parseActionEntry])
  | int n => exact absurd h (by simp [parseActionEntry])
  | list xs => exact absurd h (by simp [parseActionEntry])

/-- Normalized actions always carry a vocabulary name. -/
theorem normalizeActions_name_allowed (raw_actions : PyValue)
    (pa : PlannedAction) (h : pa ∈ normalizeActions raw_actions) :
    pa.name ∈ ALLOWED_ACTIONS := by
  unfold normalizeActions at h
  split at h
  · simp at h
  · split at h
    · rcases List.mem_filterMap.mp h with ⟨entry, _, hparse⟩
      exact parseActionEntry_name_allowed entry pa hparse
    · simp at h

/-- If some action with a vocabulary name lacks both a per-action reference
and document content, the context precondition rejects the request. -/
theorem ensurePricingContext_not_ok (url : PyValue)
    (yaml_content : Option String) :
    ∀ actions : List PlannedAction,
      (∃ a ∈ actions, a.name ∈ ALLOWED_ACTIONS ∧
        pyTruthy (pyOr (pvOfOptStr a.pricing_url) url) = false ∧
        pyTruthy (pvOfOptStr yaml_content) = false) →
      exceptIsOk (ensurePricingContext url yaml_content actions) = false := by
  intro actions
  induction actions with
  | nil => rintro ⟨a, ha, _⟩; simp at ha
  | cons b rest ih =>
      rintro ⟨a, ha, hall, hurl, hyaml⟩
      rw [ensurePricingContext]
      rcases List.mem_cons.mp ha with rfl | hmem
      · have hctx : (pyTruthy (pyOr (pvOfOptStr a.pricing_url) url) ||
            pyTruthy (pvOfOptStr yaml_content)) = false := by
          rw [hurl, hyaml]; rfl
        simp only [ALLOWED_ACTIONS, List.mem_cons, List.mem_singleton,
          List.not_mem_nil, or_false] at hall
        rcases hall with h1 | h1 | h1 <;> simp [h1, hctx, exceptIsOk]
      · split
        · rfl
        · split
          · rfl
          · exact ih ⟨a, hmem, hall, hurl, hyaml⟩

/-- C7.  A request whose normalized plan contains an action lacking both a
resolved reference (its own override or the request-level resolution) and
document content fails before any action is dispatched: `handle_question`
errors and the workflow collaborator receives no call at all. -/
theorem handle_question_missing_context (plan : PyValue)
    (wf : WorkflowCall → PyValue)
    (answerLLM : String → PyValue → PyValue → String) (question : String)
    (pricing_url yaml_content : Option String)
    (h : ∃ a ∈ normalizeActions (pyGet plan "actions"),
      pyTruthy (pyOr (pvOfOptStr a.pricing_url)
        (resolvePricingReference (pyGet plan "pricing_url") pricing_url
          yaml_content)) = false ∧
      pyTruthy (pvOfOptStr yaml_content) = false) :
    (handleQuestion plan wf answerLLM question pricing_url yaml_content).1 =
      [] ∧
    exceptIsOk ((handleQuestion plan wf answerLLM question pricing_url
      yaml_content).2) = false := by
  obtain ⟨a, hmem, hurl, hyaml⟩ := h
  have hall : a.name ∈ ALLOWED_ACTIONS :=
    normalizeActions_name_allowed _ a hmem
  unfold handleQuestion
  cases hval : validateYamlRequirement plan yaml_content with
  | error msg => exact ⟨rfl, rfl⟩
  | ok u =>
      dsimp only
      have hnok := ensurePricingContext_not_ok
        (resolvePricingReference (pyGet plan "pricing_url") pricing_url
          yaml_content) yaml_content
        (normalizeActions (pyGet plan "actions")) ⟨a, hmem, hall, hurl, hyaml⟩
      have hne : (normalizeActions (pyGet plan "actions")).isEmpty = false :=
        by
          cases hacts : normalizeActions (pyGet plan "actions") with
          | nil => rw [hacts] at hmem; simp at hmem
          | cons x xs => rfl
      cases hE : ensurePricingContext
          (resolvePricingReference (pyGet plan "pricing_url") pricing_url
            yaml_content) yaml_content
          (normalizeActions (pyGet plan "actions")) with
      | ok u2 => rw [hE] at hnok; exact absurd hnok (by simp [exceptIsOk])
      | error msg =>
          rw [executeActions,
            if_neg (by rw [hne]; exact Bool.false_ne_true), hE]
          exact ⟨rfl, rfl⟩

/-- C7 witness: an `optimal` plan with no reference and no document fails
with no workflow call. -/
theorem handle_question_missing_context_witness :
    (handleQuestion (.dict [("actions", .list [.str "optimal"])])
      (fun _ => .dict []) (fun _ _ _ => "") "q" Option.none Option.none).1 =
      [] ∧
    exceptIsOk ((handleQuestion (.dict [("actions", .list [.str "optimal"])])
      (fun _ => .dict []) (fun _ _ _ => "") "q" Option.none
      Option.none).2) = false :=
  handle_question_missing_context (.dict [("actions", .list [.str "optimal"])])
    (fun _ => .dict []) (fun _ _ _ => "") "q" Option.none Option.none
    ⟨⟨"optimal", Option.none, Option.none⟩, by decide, by decide, by decide⟩

/-- `url or ""` has the same truthiness as `url`. -/
theorem pyTruthy_pyOr_empty (u : PyValue) :
    pyTruthy (pyOr u (.str "")) = pyTruthy u := by
  by_cases h : pyTruthy u = true
  · simp [pyOr, h]
  · rw [Bool.not_eq_true] at h
    unfold pyOr
    rw [if_neg (by simp [h]), h]
    rfl

/-- Every dispatch branch forwards the effective refresh flag verbatim. -/
theorem runSingleActionCall_refresh (a : PlannedAction) (u : PyValue)
    (r : Bool) (s : PyValue) (f : Option PyValue) (o : PyValue)
    (y : Option String) : (runSingleActionCall a u r s f o y).refresh = r := by
  dsimp only [runSingleActionCall]
  split_ifs <;> rfl

/-- The dispatched reference has the same truthiness as the per-action
reference (`url or ""` only substitutes a falsy value for a falsy one). -/
theorem runSingleActionCall_url_truthy (a : PlannedAction) (u : PyValue)
    (r : Bool) (s : PyValue) (f : Option PyValue) (o : PyValue)
    (y : Option String) :
    pyTruthy (runSingleActionCall a u r s f o y).url = pyTruthy u := by
  dsimp only [runSingleActionCall]
  split_ifs <;> simp [pyTruthy_pyOr_empty]

/-- For a truthy per-action reference the dispatched reference is that very
value in every branch. -/
theorem runSingleActionCall_url_of_truthy (a : PlannedAction) (u : PyValue)
    (r : Bool) (s : PyValue) (f : Option PyValue) (o : PyValue)
    (y : Option String) (h : pyTruthy u = true) :
    (runSingleActionCall a u r s f o y).url = u := by
  dsimp only [runSingleActionCall]
  split_ifs <;> simp [pyOr, h]

/-- The refresh-deduplication invariant over a dispatched call sequence,
relative to the set of references already refreshed before it: each call's
flag is the plan flag AND a truthy reference AND that reference not yet
refreshed; refreshed references accumulate. -/
def RefreshInv (refresh : Bool) : List PyValue → List WorkflowCall → Prop
  | _, [] => True
  | transformed, c :: cs =>
      c.refresh = (refresh && pyTruthy c.url &&
        decide (c.url ∉ transformed)) ∧
      RefreshInv refresh
        (if c.refresh then c.url :: transformed else transformed) cs

/-- The head facts of one loop iteration: the dispatched call's flag agrees
with the invariant's formula over the call's own reference, and updating
the refreshed set by the per-action reference agrees with updating it by
the call's reference and flag. -/
theorem runSingleActionCall_inv_facts (a : PlannedAction) (u : PyValue)
    (s : PyValue) (f : Option PyValue) (o : PyValue) (y : Option String)
    (refresh : Bool) (t : List PyValue) :
    (runSingleActionCall a u (refresh && pyTruthy u && decide (u ∉ t))
        s f o y).refresh =
      (refresh && pyTruthy (runSingleActionCall a u
          (refresh && pyTruthy u && decide (u ∉ t)) s f o y).url &&
        decide ((runSingleActionCall a u
          (refresh && pyTruthy u && decide (u ∉ t)) s f o y).url ∉ t)) ∧
    (if (refresh && pyTruthy u && decide (u ∉ t)) && pyTruthy u then
        u :: t
      else t) =
      (if (runSingleActionCall a u (refresh && pyTruthy u && decide (u ∉ t))
          s f o y).refresh then
        (runSingleActionCall a u (refresh && pyTruthy u && decide (u ∉ t))
          s f o y).url :: t
      else t) := by
  by_cases hu : pyTruthy u = true
  · rw [runSingleActionCall_refresh, runSingleActionCall_url_of_truthy
      _ _ _ _ _ _ _ hu, hu]
    simp
  · rw [Bool.not_eq_true] at hu
    have heff : (refresh && pyTruthy u && decide (u ∉ t)) = false := by
      rw [hu]
      simp
    constructor
    · rw [runSingleActionCall_refresh, heff, runSingleActionCall_url_truthy,
        hu]
      simp
    · rw [runSingleActionCall_refresh, heff]
      simp

/-- The execution loop maintains the refresh-deduplication invariant. -/
theorem executeActionsGo_refresh_inv (wf : WorkflowCall → PyValue)
    (default_url : PyValue) (refresh : Bool) (solver : PyValue)
    (filters : Option PyValue) (objective : PyValue)
    (yaml_content : Option String) :
    ∀ (actions : List PlannedAction) (index : ℕ)
      (transformed : List PyValue) (last : Option PyValue),
      RefreshInv refresh transformed
        (executeActionsGo wf default_url refresh solver filters objective
          yaml_content actions index transformed last).1 := by
  intro actions
  induction actions with
  | nil => intro index transformed last; trivial
  | cons a rest ih =>
      intro index transformed last
      rw [executeActionsGo]
      dsimp only [prepareActionInputs]
      refine ⟨(runSingleActionCall_inv_facts a _ _ _ _ _ refresh
        transformed).1, ?_⟩
      rw [← (runSingleActionCall_inv_facts a
        (pyOr (pvOfOptStr a.pricing_url) default_url) solver filters
        objective _ refresh transformed).2]
      exact ih _ _ _

/-- Unfolding `RefreshInv` into a per-index characterization: a call's flag
is set exactly when the plan flag is set, its reference is truthy, the
reference is outside the initial refreshed set, and no earlier call
refreshed the same reference. -/
theorem refreshInv_get (refresh : Bool) :
    ∀ (cs : List WorkflowCall) (t : List PyValue), RefreshInv refresh t cs →
      ∀ i (hi : i < cs.length),
        ((cs.get ⟨i, hi⟩).refresh = true ↔
          (refresh = true ∧ pyTruthy (cs.get ⟨i, hi⟩).url = true ∧
           (cs.get ⟨i, hi⟩).url ∉ t ∧
           ∀ j (hj : j < i),
             ¬((cs.get ⟨j, Nat.lt_trans hj hi⟩).refresh = true ∧
               (cs.get ⟨j, Nat.lt_trans hj hi⟩).url =
                 (cs.get ⟨i, hi⟩).url))) := by
  intro cs
  induction cs with
  | nil => intro t _ i hi; exact absurd hi (Nat.not_lt_zero i)
  | cons c cs ih =>
      intro t hinv i hi
      obtain ⟨hc, hrest⟩ := hinv
      cases i with
      | zero =>
          simp only [List.get]
          rw [hc]
          constructor
          · intro h
            simp only [Bool.and_eq_true, decide_eq_true_eq] at h
            exact ⟨h.1.1, h.1.2, h.2,
              fun j hj => absurd hj (Nat.not_lt_zero j)⟩
          · rintro ⟨h1, h2, h3, _⟩
            simp [h1, h2, h3]
      | succ i =>
          have hi' : i < cs.length := Nat.lt_of_succ_lt_succ hi
          have hmain := ih (if c.refresh then c.url :: t else t) hrest i hi'
          simp only [List.get]
          rw [hmain]
          constructor
          · rintro ⟨h1, h2, h3, h4⟩
            refine ⟨h1, h2, ?_, ?_⟩
            · intro hmem
              apply h3
              by_cases hcr : c.refresh = true
              · rw [if_pos hcr]
                exact List.mem_cons_of_mem _ hmem
              · rw [if_neg hcr]
                exact hmem
            · intro j hj
              cases j with
              | zero =>
                  rintro ⟨hcr, hcu⟩
                  simp only [List.get] at hcr hcu
                  apply h3
                  rw [if_pos hcr, ← hcu]
                  exact List.mem_cons_self _ _
              | succ j =>
                  exact h4 j (Nat.lt_of_succ_lt_succ hj)
          · rintro ⟨h1, h2, h3, h4⟩
            refine ⟨h1, h2, ?_,
              fun j hj => h4 (j + 1) (Nat.succ_lt_succ hj)⟩
            by_cases hcr : c.refresh = true
            · rw [if_pos hcr]
              intro hmem
              rcases List.mem_cons.mp hmem with heq | hmem2
              · exact h4 0 (Nat.succ_pos i) ⟨hcr, heq.symm⟩
              · exact h3 hmem2
            · rw [if_neg hcr]
              exact h3

/-- The sequence of calls one request dispatches to the workflow. -/
def dispatchedCalls (wf : WorkflowCall → PyValue)
    (actions : List PlannedAction) (url : PyValue) (refresh : Bool)
    (solver : PyValue) (filters : Option PyValue) (objective : PyValue)
    (yaml_content : Option String) : List WorkflowCall :=
  (executeActions wf actions url refresh solver filters objective
    yaml_content).1

/-- C3.  Refresh de-duplication: in the calls one request dispatches, a
call's effective refresh flag is set exactly when the plan's refresh flag
is set, the call's reference is truthy, and no earlier call of the same
request refreshed the same reference; consequently no reference is
dispatched with an active refresh flag more than once per request. -/
theorem execute_actions_refresh_dedup (wf : WorkflowCall → PyValue)
    (actions : List PlannedAction) (url : PyValue) (refresh : Bool)
    (solver : PyValue) (filters : Option PyValue) (objective : PyValue)
    (yaml_content : Option String) :
    (∀ i (hi : i < (dispatchedCalls wf actions url refresh solver filters
        objective yaml_content).length),
      (((dispatchedCalls wf actions url refresh solver filters objective
          yaml_content).get ⟨i, hi⟩).refresh = true ↔
        (refresh = true ∧
         pyTruthy ((dispatchedCalls wf actions url refresh solver filters
           objective yaml_content).get ⟨i, hi⟩).url = true ∧
         ∀ j (hj : j < i),
           ¬(((dispatchedCalls wf actions url refresh solver filters
               objective yaml_content).get
                ⟨j, Nat.lt_trans hj hi⟩).refresh = true ∧
             ((dispatchedCalls wf actions url refresh solver filters
               objective yaml_content).get ⟨j, Nat.lt_trans hj hi⟩).url =
             ((dispatchedCalls wf actions url refresh solver filters
               objective yaml_content).get ⟨i, hi⟩).url)))) ∧
    (∀ i j (hi : i < (dispatchedCalls wf actions url refresh solver filters
        objective yaml_content).length)
      (hj : j < (dispatchedCalls wf actions url refresh solver filters
        objective yaml_content).length), i < j →
      ((dispatchedCalls wf actions url refresh solver filters objective
        yaml_content).get ⟨i, hi⟩).refresh = true →
      ((dispatchedCalls wf actions url refresh solver filters objective
        yaml_content).get ⟨j, hj⟩).refresh = true →
      ((dispatchedCalls wf actions url refresh solver filters objective
        yaml_content).get ⟨i, hi⟩).url ≠
      ((dispatchedCalls wf actions url refresh solver filters objective
        yaml_content).get ⟨j, hj⟩).url) := by
  have hinv : RefreshInv refresh []
      (dispatchedCalls wf actions url refresh solver filters objective
        yaml_content) := by
    unfold dispatchedCalls executeActions
    split
    · trivial
    · split
      · trivial
      · exact executeActionsGo_refresh_inv wf url refresh solver filters
          objective yaml_content actions 0 [] Option.none
  have main := refreshInv_get refresh
    (dispatchedCalls wf actions url refresh solver filters objective
      yaml_content) [] hinv
  have part1 : ∀ i (hi : i < (dispatchedCalls wf actions url refresh solver
      filters objective yaml_content).length),
      (((dispatchedCalls wf actions url refresh solver filters objective
          yaml_content).get ⟨i, hi⟩).refresh = true ↔
        (refresh = true ∧
         pyTruthy ((dispatchedCalls wf actions url refresh solver filters
           objective yaml_content).get ⟨i, hi⟩).url = true ∧
         ∀ j (hj : j < i),
           ¬(((dispatchedCalls wf actions url refresh solver filters
               objective yaml_content).get
                ⟨j, Nat.lt_trans hj hi⟩).refresh = true ∧
             ((dispatchedCalls wf actions url refresh solver filters
               objective yaml_content).get ⟨j, Nat.lt_trans hj hi⟩).url =
             ((dispatchedCalls wf actions url refresh solver filters
               objective yaml_content).get ⟨i, hi⟩).url))) := by
    intro i hi
    rw [main i hi]
    constructor
    · rintro ⟨h1, h2, _, h4⟩
      exact ⟨h1, h2, h4⟩
    · rintro ⟨h1, h2, h4⟩
      exact ⟨h1, h2, List.not_mem_nil _, h4⟩
  refine ⟨part1, fun i j hi hj hij hri hrj hurl => ?_⟩
  obtain ⟨_, _, hall⟩ := (part1 j hj).mp hrj
  exact hall i hij ⟨hri, hurl⟩

/-- C3 witness: a two-action plan sharing one reference with refresh
requested: the first dispatched call refreshes, the second does not. -/
theorem execute_actions_refresh_dedup_witness :
    ((dispatchedCalls (fun _ => .dict [])
      [⟨"summary", Option.none, Option.none⟩,
       ⟨"summary", Option.none, Option.none⟩]
      (.str "https://p.example") true (.str "minizinc") Option.none
      (.str "minimize") Option.none).get ⟨0, by decide⟩).refresh = true ∧
    ((dispatchedCalls (fun _ => .dict [])
      [⟨"summary", Option.none, Option.none⟩,
       ⟨"summary", Option.none, Option.none⟩]
      (.str "https://p.example") true (.str "minizinc") Option.none
      (.str "minimize") Option.none).get ⟨1, by decide⟩).refresh = false := by
  constructor
  · exact ((execute_actions_refresh_dedup (fun _ => .dict [])
      [⟨"summary", Option.none, Option.none⟩,
       ⟨"summary", Option.none, Option.none⟩]
      (.str "https://p.example") true (.str "minizinc") Option.none
      (.str "minimize") Option.none).1 0 (by decide)).mpr
      ⟨rfl, by decide, fun j hj => absurd hj (Nat.not_lt_zero j)⟩
  · refine Bool.eq_false_iff.mpr (fun ht => ?_)
    obtain ⟨_, _, hall⟩ := ((execute_actions_refresh_dedup (fun _ => .dict [])
      [⟨"summary", Option.none, Option.none⟩,
       ⟨"summary", Option.none, Option.none⟩]
      (.str "https://p.example") true (.str "minizinc") Option.none
      (.str "minimize") Option.none).1 1 (by decide)).mp ht
    exact hall 0 (by omega) ⟨by decide, by decide⟩

end PricingMCP
